import Mathlib

/-!
Shallow embedding of the `cacheables` library core (`Cacheables` facade and
the per-key `Cacheable` entry class with its five cache policies), together
with a small-step event semantics for the cooperative (promise-based)
concurrency of the source.

Modelling conventions:
* `Date.now()` timestamps and `maxAge` millisecond counts are `Nat`.
* The JS value stored in `#value` starts out as `undefined`; we model it as
  `Option T` with `none` standing for `undefined`.
* A pending promise created by a fetch is identified by a `Nat` fetch id;
  the entry field `promise` (the source's `#promise`) holds the id of the
  fetch currently owned as the in-flight handle.
* JS truthiness of an optional `maxAge` number is `some m` with `m ≠ 0`.
* The source's `#initialized` flag is the field `inited` here.
-/

namespace Cacheables

/-- The tagged union `CacheableOptions` of the source: one constructor per
cache policy, carrying the policy's `maxAge` payload where the source has
one (`max-age` requires it, `stale-while-revalidate` takes it optionally). -/
inductive CacheableOptions where
  | cacheOnly : CacheableOptions
  | networkOnly : CacheableOptions
  | networkOnlyNonConcurrent : CacheableOptions
  | maxAge (maxAge : Nat) : CacheableOptions
  | staleWhileRevalidate (maxAge : Option Nat) : CacheableOptions
  deriving Repr, DecidableEq

/-- The per-key `Cacheable` entry state: hit counter `hits`, `lastFetch`
timestamp (the source's `#lastFetch`, set at fetch start), the
initialization flag `inited` (the source's `#initialized`, set on first
successful fetch), the in-flight promise handle `promise` (the source's
`#promise`, holding the id of the owned pending fetch), and the cached
`value` (the source's `#value`, `none` = JS `undefined`). -/
structure Entry (T : Type) where
  hits : Nat := 0
  lastFetch : Nat := 0
  inited : Bool := false
  promise : Option Nat := none
  value : Option T := none
  deriving Repr, DecidableEq

/-- `#isFetching`: whether the entry holds an in-flight promise handle. -/
def isFetching {T : Type} (e : Entry T) : Bool :=
  e.promise.isSome

/-- Outcome of the synchronous part of a `touch` call: either the call is
served from the cache immediately (`hit`), or the caller starts a new fetch
and suspends as its owner (`startFetch`), or it suspends as a joiner of the
already in-flight fetch (`join`), or — only for stale-while-revalidate — a
background fetch is started and the cached value is served immediately
(`hitAndStart`). -/
inductive SyncAct (T : Type) where
  | hit (result : Option T) : SyncAct T
  | startFetch : SyncAct T
  | join (fid : Nat) : SyncAct T
  | hitAndStart (result : Option T) : SyncAct T
  deriving Repr, DecidableEq

/-- Synchronous prologue of `#fetch`: record the fetch start time in
`#lastFetch` and store the freshly created promise (id `fid`) as the
in-flight handle; the caller then suspends awaiting that promise. -/
def fetchSync {T : Type} (e : Entry T) (now fid : Nat) : Entry T :=
  { e with lastFetch := now, promise := some fid }

/-- Synchronous prologue of `#fetchNonConcurrent`: if a fetch is in flight,
suspend as a joiner of that promise; otherwise start a fetch via `#fetch`. -/
def fetchNonConcurrentSync {T : Type} (e : Entry T) (now fid : Nat) :
    Entry T × SyncAct T :=
  match e.promise with
  | some fid' => (e, SyncAct.join fid')
  | none => (fetchSync e now fid, SyncAct.startFetch)

/-- `#handlePreInit`: while uninitialized, every policy fetches; all
policies except `network-only` go through `#fetchNonConcurrent` (joining an
in-flight fetch), while `network-only` calls `#fetch` unconditionally. -/
def handlePreInit {T : Type} (e : Entry T) (options : Option CacheableOptions)
    (now fid : Nat) : Entry T × SyncAct T :=
  match options with
  | none => fetchNonConcurrentSync e now fid
  | some CacheableOptions.cacheOnly => fetchNonConcurrentSync e now fid
  | some CacheableOptions.networkOnly => (fetchSync e now fid, SyncAct.startFetch)
  | some (CacheableOptions.staleWhileRevalidate _) => fetchNonConcurrentSync e now fid
  | some (CacheableOptions.maxAge _) => fetchNonConcurrentSync e now fid
  | some CacheableOptions.networkOnlyNonConcurrent => fetchNonConcurrentSync e now fid

/-- `#handleCacheOnly`: log a hit and serve the cached value. -/
def handleCacheOnly {T : Type} (e : Entry T) : Entry T × SyncAct T :=
  ({ e with hits := e.hits + 1 }, SyncAct.hit e.value)

/-- `#handleMaxAge`: if `Date.now() > #lastFetch + maxAge` (strict, as in
the source), fetch non-concurrently; otherwise log a hit and serve. -/
def handleMaxAge {T : Type} (e : Entry T) (maxAge : Nat) (now fid : Nat) :
    Entry T × SyncAct T :=
  if now > e.lastFetch + maxAge then
    fetchNonConcurrentSync e now fid
  else
    ({ e with hits := e.hits + 1 }, SyncAct.hit e.value)

/-- JS truthiness of the optional `maxAge` number in `#handleSwr`:
`undefined` and `0` are falsy. -/
def truthyMaxAge : Option Nat → Bool
  | none => false
  | some m => m != 0

/-- `#handleSwr`: if no fetch is in flight and
`(maxAge && Date.now() > lastFetch + maxAge) || !maxAge`, start a
background fetch (fire-and-forget, no caller awaits it); in all cases log
a hit and serve the currently cached value immediately. -/
def handleSwr {T : Type} (e : Entry T) (maxAge : Option Nat) (now fid : Nat) :
    Entry T × SyncAct T :=
  if !(isFetching e) &&
      ((truthyMaxAge maxAge && decide (now > e.lastFetch + maxAge.getD 0)) ||
        !(truthyMaxAge maxAge)) then
    let e1 := fetchSync e now fid
    ({ e1 with hits := e1.hits + 1 }, SyncAct.hitAndStart e1.value)
  else
    ({ e with hits := e.hits + 1 }, SyncAct.hit e.value)

/-- Synchronous part of `Cacheable.touch`: pre-init behavior first, then
per-policy dispatch (absent options default to cache-only serving). `now`
is the current `Date.now()`; `fid` is the id a newly created promise would
get. -/
def touchSync {T : Type} (e : Entry T) (options : Option CacheableOptions)
    (now fid : Nat) : Entry T × SyncAct T :=
  if !e.inited then
    handlePreInit e options now fid
  else
    match options with
    | none => handleCacheOnly e
    | some CacheableOptions.cacheOnly => handleCacheOnly e
    | some CacheableOptions.networkOnly => (fetchSync e now fid, SyncAct.startFetch)
    | some (CacheableOptions.staleWhileRevalidate mA) => handleSwr e mA now fid
    | some (CacheableOptions.maxAge m) => handleMaxAge e m now fid
    | some CacheableOptions.networkOnlyNonConcurrent => fetchNonConcurrentSync e now fid

/-! Event semantics.

The source runs on single-threaded cooperative (promise) concurrency:
callers interleave only at suspension points.  A system state tracks the
`Cacheables` registry (the key → entry map `#cacheables`), the pending
fetches with their attached waiter continuations (the owner — the frame
inside `#fetch` — attaches first, joiners in join order), the results
delivered to finished callers, and a counter of resource invocations.
Events are `call` (a caller's synchronous prologue runs to completion or to
its suspension point) and `settle` (a pending promise settles and its
continuation cascade runs in attach order). -/

/-- A continuation waiting on a pending fetch promise:
`owner` is the frame suspended at `await this.#promise` inside `#fetch`
(with `none` for the fire-and-forget stale-while-revalidate background
task, whose result no caller observes); `joiner` is a frame suspended at
`await this.#promise` inside `#fetchNonConcurrent`; `direct` is a caller of
the facade with caching disabled, awaiting `resource()` directly. -/
inductive Waiter where
  | owner (cid : Option Nat) : Waiter
  | joiner (cid : Nat) : Waiter
  | direct (cid : Nat) : Waiter
  deriving Repr, DecidableEq

/-- Result delivered to a caller: the resolved JS value (`Option T`, with
`none` = `undefined`) or the rejection error. -/
abbrev CallResult (T E : Type) := Except E (Option T)

/-- Whole-system state: the facade's `enabled` flag and key → entry map,
the pending fetches (promise id, key, waiters in attach order), the results
recorded for finished callers (most recent first), a fresh-promise-id
counter, and the number of resource (fetch function) invocations so far. -/
structure Sys (T E : Type) where
  enabled : Bool
  cacheables : List (String × Entry T)
  pending : List (Nat × String × List Waiter)
  results : List (Nat × CallResult T E)
  nextFid : Nat
  fetchCount : Nat
  deriving Repr

/-- A fresh system as built by `new Cacheables({enabled})`. -/
def Sys.init (T E : Type) (enabled : Bool) : Sys T E :=
  { enabled := enabled, cacheables := [], pending := [], results := [],
    nextFid := 0, fetchCount := 0 }

/-- Look up the first binding of `key` in the key → entry association list
— models `this.#cacheables[key]`. -/
def lookupEntry {T : Type} (key : String) : List (String × Entry T) → Option (Entry T)
  | [] => none
  | (k, v) :: rest => if k = key then some v else lookupEntry key rest

/-- Replace the value of the first binding of `key` in an association list,
or append a new binding — models `this.#cacheables[key] = cacheable`. -/
def insertEntry {T : Type} (key : String) (e : Entry T) :
    List (String × Entry T) → List (String × Entry T)
  | [] => [(key, e)]
  | (k, v) :: rest =>
    if k = key then (k, e) :: rest else (k, v) :: insertEntry key e rest

/-- Append a joiner continuation to the waiter list of pending fetch `fid`
(joiners attach to the shared promise in join order, after the owner). -/
def attachJoiner (fid cid : Nat) :
    List (Nat × String × List Waiter) → List (Nat × String × List Waiter)
  | [] => []
  | (f, k, ws) :: rest =>
    if f = fid then (f, k, ws ++ [Waiter.joiner cid]) :: rest
    else (f, k, ws) :: attachJoiner fid cid rest

/-- Remove pending fetch `fid`, returning its key and waiters. -/
def takePending (fid : Nat) :
    List (Nat × String × List Waiter) →
    Option ((String × List Waiter) × List (Nat × String × List Waiter))
  | [] => none
  | (f, k, ws) :: rest =>
    if f = fid then some ((k, ws), rest)
    else (takePending fid rest).map (fun r => (r.1, (f, k, ws) :: r.2))

/-- Run one waiter continuation of a settling promise: the owner
continuation performs `this.#value = await this.#promise` (on success
setting `#value` and `#initialized`), then the `finally` clears `#promise`
unconditionally, and returns `this.#value` (or re-throws the rejection); a
joiner continuation logs a hit and returns the current `this.#value` on
success, or propagates the rejection; a direct waiter simply receives the
outcome. Returns the updated entry and the result to record (if any caller
observes one). -/
def applyWaiter {T E : Type} (outcome : Except E T) (e : Entry T) :
    Waiter → Entry T × Option (Nat × CallResult T E)
  | Waiter.owner cid =>
    match outcome with
    | Except.ok v =>
      let e1 := { e with value := some v, inited := true, promise := none }
      (e1, cid.map (fun c => (c, Except.ok e1.value)))
    | Except.error err =>
      ({ e with promise := none }, cid.map (fun c => (c, Except.error err)))
  | Waiter.joiner cid =>
    match outcome with
    | Except.ok _ =>
      let e1 := { e with hits := e.hits + 1 }
      (e1, some (cid, Except.ok e1.value))
    | Except.error err => (e, some (cid, Except.error err))
  | Waiter.direct cid =>
    match outcome with
    | Except.ok v => (e, some (cid, Except.ok (some v)))
    | Except.error err => (e, some (cid, Except.error err))

/-- Run the whole continuation cascade of a settling promise, in attach
order (owner first, then joiners), threading the entry state and
collecting the callers' results (most recent first). -/
def runWaiters {T E : Type} (outcome : Except E T) (e : Entry T) :
    List Waiter → Entry T × List (Nat × CallResult T E)
  | [] => (e, [])
  | w :: ws =>
    let (e1, r) := applyWaiter outcome e w
    let (e2, rs) := runWaiters outcome e1 ws
    (e2, rs ++ r.toList)

/-- An external event: `call cid key options now` — a caller invokes
`cacheable(resource, key, options)` at time `now` and runs synchronously to
completion or to its suspension point; `settle fid outcome` — the promise
of fetch `fid` settles and its continuation cascade runs. -/
inductive Event (T E : Type) where
  | call (cid : Nat) (key : String) (options : Option CacheableOptions) (now : Nat) :
      Event T E
  | settle (fid : Nat) (outcome : Except E T) : Event T E

/-- One step of the system. A `call` with caching disabled invokes the
resource directly (`return resource()`), touching no entry state.  An
enabled `call` runs `Cacheables.#cacheable`: look up or create (and
register) the entry, then run the synchronous part of `touch`; a cache hit
records the caller's result at once, starting a fetch invokes the resource
and suspends the caller as the owner (or nobody, for a
stale-while-revalidate background fetch), joining attaches the caller to
the in-flight promise.  A `settle` removes the pending fetch and runs its
cascade against the entry currently registered under its key. -/
def step {T E : Type} (s : Sys T E) : Event T E → Sys T E
  | Event.call cid key options now =>
    if !s.enabled then
      { s with
        pending := s.pending ++ [(s.nextFid, key, [Waiter.direct cid])]
        nextFid := s.nextFid + 1
        fetchCount := s.fetchCount + 1 }
    else
      let e0 := ((lookupEntry key s.cacheables).getD {})
      let r := touchSync e0 options now s.nextFid
      let cs := insertEntry key r.1 s.cacheables
      match r.2 with
      | SyncAct.hit v =>
        { s with cacheables := cs, results := (cid, Except.ok v) :: s.results }
      | SyncAct.startFetch =>
        { s with
          cacheables := cs
          pending := s.pending ++ [(s.nextFid, key, [Waiter.owner (some cid)])]
          nextFid := s.nextFid + 1
          fetchCount := s.fetchCount + 1 }
      | SyncAct.join fid =>
        { s with cacheables := cs, pending := attachJoiner fid cid s.pending }
      | SyncAct.hitAndStart v =>
        { s with
          cacheables := cs
          pending := s.pending ++ [(s.nextFid, key, [Waiter.owner none])]
          nextFid := s.nextFid + 1
          fetchCount := s.fetchCount + 1
          results := (cid, Except.ok v) :: s.results }
  | Event.settle fid outcome =>
    match takePending fid s.pending with
    | none => s
    | some ((key, ws), rest) =>
      match lookupEntry key s.cacheables with
      | some e =>
        let r := runWaiters outcome e ws
        { s with
          cacheables := insertEntry key r.1 s.cacheables
          pending := rest
          results := r.2 ++ s.results }
      | none =>
        let r := runWaiters outcome ({} : Entry T) ws
        { s with pending := rest, results := r.2 ++ s.results }

/-- Run a sequence of events from a state. -/
def run {T E : Type} (s : Sys T E) (evs : List (Event T E)) : Sys T E :=
  evs.foldl step s

/-- `Cacheables.isCached`: `!!this.#cacheables[key]` — an entry object is
registered under `key` (objects are truthy). -/
def isCached {T E : Type} (s : Sys T E) (key : String) : Bool :=
  (lookupEntry key s.cacheables).isSome

/-- `Cacheables.keys`: the keys of the registry. -/
def keysOf {T E : Type} (s : Sys T E) : List String :=
  s.cacheables.map Prod.fst

/-- The caller ids that observe the settlement of a fetch with the given
waiter list (the stale-while-revalidate background owner has none). -/
def waiterCids : List Waiter → List Nat
  | [] => []
  | Waiter.owner none :: ws => waiterCids ws
  | Waiter.owner (some c) :: ws => c :: waiterCids ws
  | Waiter.joiner c :: ws => c :: waiterCids ws
  | Waiter.direct c :: ws => c :: waiterCids ws

/-- Whether a synchronous `touch` outcome invokes the fetch function
(starts a new fetch, in the foreground or the background). -/
def startsFetch {T : Type} : SyncAct T → Bool
  | SyncAct.hit _ => false
  | SyncAct.startFetch => true
  | SyncAct.join _ => false
  | SyncAct.hitAndStart _ => true

/-! Helper lemmas about the registry association list, pending-fetch
bookkeeping and settlement cascades. -/

theorem insertEntry_self {T : Type} (key : String) :
    ∀ (l : List (String × Entry T)) (e : Entry T),
      lookupEntry key l = some e → insertEntry key e l = l := by
  intro l
  induction l with
  | nil => intro e h; simp [lookupEntry] at h
  | cons p rest ih =>
    intro e h
    obtain ⟨k0, v⟩ := p
    by_cases hk : k0 = key
    · simp [lookupEntry, hk] at h
      simp [insertEntry, hk, h]
    · simp [lookupEntry, hk] at h
      simp [insertEntry, hk, ih e h]

theorem lookupEntry_insertEntry {T : Type} (key : String) (e' : Entry T) :
    ∀ (l : List (String × Entry T)) (e : Entry T),
      lookupEntry key l = some e →
      ∀ k, lookupEntry k (insertEntry key e' l) =
        if k = key then some e' else lookupEntry k l := by
  intro l
  induction l with
  | nil => intro e h; simp [lookupEntry] at h
  | cons p rest ih =>
    intro e h k
    obtain ⟨k0, v⟩ := p
    by_cases hk : k0 = key
    · subst hk
      simp only [insertEntry, if_pos rfl]
      by_cases hkk : k = k0
      · subst hkk; simp [lookupEntry]
      · have h1 : ¬(k0 = k) := fun hh => hkk hh.symm
        simp [lookupEntry, h1, hkk]
    · simp only [lookupEntry, if_neg hk] at h
      simp only [insertEntry, if_neg hk]
      by_cases hkk : k0 = k
      · subst hkk
        simp [lookupEntry, hk]
      · simp [lookupEntry, hkk, ih e h k]

theorem insertEntry_insertEntry {T : Type} (key : String) (a b : Entry T) :
    ∀ l : List (String × Entry T),
      insertEntry key a (insertEntry key b l) = insertEntry key a l := by
  intro l
  induction l with
  | nil => simp [insertEntry]
  | cons p rest ih =>
    obtain ⟨k0, v⟩ := p
    by_cases hk : k0 = key
    · simp [insertEntry, hk]
    · simp [insertEntry, hk, ih]

theorem takePending_append_fresh (fid : Nat) (k : String) (ws : List Waiter) :
    ∀ l, (∀ p ∈ l, p.1 ≠ fid) →
      takePending fid (l ++ [(fid, k, ws)]) = some ((k, ws), l) := by
  intro l
  induction l with
  | nil => intro _; simp [takePending]
  | cons p rest ih =>
    intro h
    obtain ⟨f, k0, ws0⟩ := p
    have hf : f ≠ fid := h (f, k0, ws0) (List.mem_cons_self _ _)
    simp [takePending, hf, ih (fun q hq => h q (List.mem_cons_of_mem _ hq))]

theorem runWaiters_error_entry {T E : Type} (err : E) :
    ∀ (ws : List Waiter) (e : Entry T),
      (runWaiters (Except.error err) e ws).1.value = e.value ∧
      (runWaiters (Except.error err) e ws).1.hits = e.hits ∧
      (runWaiters (Except.error err) e ws).1.inited = e.inited ∧
      (runWaiters (Except.error err) e ws).1.lastFetch = e.lastFetch := by
  intro ws
  induction ws with
  | nil => intro e; simp [runWaiters]
  | cons w rest ih =>
    intro e
    cases w with
    | owner cid => simpa [runWaiters, applyWaiter] using ih { e with promise := none }
    | joiner cid => simpa [runWaiters, applyWaiter] using ih e
    | direct cid => simpa [runWaiters, applyWaiter] using ih e

theorem runWaiters_error_results {T E : Type} (err : E) :
    ∀ (ws : List Waiter) (e : Entry T),
      (runWaiters (Except.error err) e ws).2 =
        ((waiterCids ws).reverse).map
          (fun c => (c, (Except.error err : CallResult T E))) := by
  intro ws
  induction ws with
  | nil => intro e; simp [runWaiters, waiterCids]
  | cons w rest ih =>
    intro e
    cases w with
    | owner cid =>
      cases cid with
      | none => simp [runWaiters, applyWaiter, waiterCids, ih]
      | some c => simp [runWaiters, applyWaiter, waiterCids, ih]
    | joiner c => simp [runWaiters, applyWaiter, waiterCids, ih]
    | direct c => simp [runWaiters, applyWaiter, waiterCids, ih]

theorem runWaiters_ok_joiners {T E : Type} (v : T) :
    ∀ (cs : List Nat) (e : Entry T), e.value = some v →
      runWaiters (E := E) (Except.ok v) e (cs.map Waiter.joiner) =
        ({ e with hits := e.hits + cs.length },
          (cs.reverse).map (fun c => (c, Except.ok (some v)))) := by
  intro cs
  induction cs with
  | nil => intro e _; simp [runWaiters]
  | cons c rest ih =>
    intro e hv
    have ihe := ih { e with hits := e.hits + 1 } (by simpa using hv)
    have harith : e.hits + 1 + rest.length = e.hits + (rest.length + 1) := by omega
    simp only [List.map_cons, runWaiters, applyWaiter, List.length_cons]
    rw [ihe]
    simp [hv, harith]

theorem runWaiters_ok_owner_joiners {T E : Type} (v : T) (c0 : Nat) (cs : List Nat)
    (e : Entry T) :
    runWaiters (E := E) (Except.ok v) e (Waiter.owner (some c0) :: cs.map Waiter.joiner) =
      ({ e with
          value := some v
          inited := true
          promise := none
          hits := e.hits + cs.length },
        (cs.reverse).map (fun c => (c, Except.ok (some v))) ++ [(c0, Except.ok (some v))]) := by
  have h := runWaiters_ok_joiners (E := E) v cs
    { e with value := some v, inited := true, promise := none } (by simp)
  simp only [runWaiters, applyWaiter]
  rw [h]
  simp

theorem runWaiters_owner_none_ok {T E : Type} (v : T) (e : Entry T) :
    runWaiters (E := E) (Except.ok v) e [Waiter.owner none] =
      ({ e with value := some v, inited := true, promise := none }, []) := by
  simp [runWaiters, applyWaiter]

theorem runWaiters_owner_none_error {T E : Type} (err : E) (e : Entry T) :
    runWaiters (T := T) (Except.error err) e [Waiter.owner none] =
      ({ e with promise := none }, []) := by
  simp [runWaiters, applyWaiter]

theorem step_call_join {T E : Type} (s : Sys T E) (c : Nat) (key : String)
    (now : Nat) (e : Entry T) (fid : Nat)
    (hen : s.enabled = true)
    (hlk : lookupEntry key s.cacheables = some e)
    (hinit : e.inited = true)
    (hp : e.promise = some fid) :
    step s (Event.call c key (some CacheableOptions.networkOnlyNonConcurrent) now) =
      { s with pending := attachJoiner fid c s.pending } := by
  simp only [step, hen, Bool.not_true, Bool.false_eq_true, if_false, hlk,
    Option.getD_some, touchSync, hinit, fetchNonConcurrentSync, hp,
    Bool.not_true, insertEntry_self key s.cacheables e hlk]

theorem step_call_startFetch_nonc {T E : Type} (s : Sys T E) (c : Nat) (key : String)
    (now : Nat) (e : Entry T)
    (hen : s.enabled = true)
    (hlk : lookupEntry key s.cacheables = some e)
    (hinit : e.inited = true)
    (hp : e.promise = none) :
    step s (Event.call c key (some CacheableOptions.networkOnlyNonConcurrent) now) =
      { s with
        cacheables := insertEntry key (fetchSync e now s.nextFid) s.cacheables
        pending := s.pending ++ [(s.nextFid, key, [Waiter.owner (some c)])]
        nextFid := s.nextFid + 1
        fetchCount := s.fetchCount + 1 } := by
  simp only [step, hen, Bool.not_true, Bool.false_eq_true, if_false, hlk,
    Option.getD_some, touchSync, hinit, fetchNonConcurrentSync, hp]

theorem step_call_cacheOnly {T E : Type} (s : Sys T E) (c : Nat) (key : String)
    (now : Nat) (e : Entry T) (options : Option CacheableOptions)
    (hen : s.enabled = true)
    (hlk : lookupEntry key s.cacheables = some e)
    (hinit : e.inited = true)
    (hopt : options = none ∨ options = some CacheableOptions.cacheOnly) :
    step s (Event.call c key options now) =
      { s with
        cacheables := insertEntry key { e with hits := e.hits + 1 } s.cacheables
        results := (c, Except.ok e.value) :: s.results } := by
  rcases hopt with h | h <;> subst h <;>
    simp only [step, hen, Bool.not_true, Bool.false_eq_true, if_false, hlk,
      Option.getD_some, touchSync, hinit, handleCacheOnly]

theorem run_nonc_joins {T E : Type} (key : String) (now : Nat) (fid : Nat) :
    ∀ (cs : List Nat) (s : Sys T E) (e : Entry T) (ws : List Waiter),
      s.enabled = true →
      lookupEntry key s.cacheables = some e →
      e.inited = true → e.promise = some fid →
      s.pending = [(fid, key, ws)] →
      run s (cs.map (fun c =>
          Event.call c key (some CacheableOptions.networkOnlyNonConcurrent) now)) =
        { s with pending := [(fid, key, ws ++ cs.map Waiter.joiner)] } := by
  intro cs
  induction cs with
  | nil =>
    intro s e ws hen hlk hinit hp hpend
    simp only [List.map_nil, run, List.foldl_nil, List.append_nil]
    rw [← hpend]
  | cons c rest ih =>
    intro s e ws hen hlk hinit hp hpend
    have hstep : step s (Event.call c key (some CacheableOptions.networkOnlyNonConcurrent) now) =
        { s with pending := [(fid, key, ws ++ [Waiter.joiner c])] } := by
      rw [step_call_join s c key now e fid hen hlk hinit hp, hpend]
      simp [attachJoiner]
    have hih := ih { s with pending := [(fid, key, ws ++ [Waiter.joiner c])] } e
      (ws ++ [Waiter.joiner c]) hen hlk hinit hp rfl
    simp only [run, List.map_cons, List.foldl_cons] at hih ⊢
    rw [hstep, hih]
    simp

theorem run_cacheOnly_serves {T E : Type} (key : String) (now : Nat)
    (options : Option CacheableOptions)
    (hopt : options = none ∨ options = some CacheableOptions.cacheOnly) :
    ∀ (cs : List Nat) (s : Sys T E) (e : Entry T) (v : T),
      s.enabled = true →
      lookupEntry key s.cacheables = some e →
      e.inited = true → e.value = some v →
      run s (cs.map (fun c => Event.call c key options now)) =
        { s with
          cacheables := insertEntry key { e with hits := e.hits + cs.length } s.cacheables
          results := (cs.reverse).map (fun c => (c, Except.ok (some v))) ++ s.results } := by
  intro cs
  induction cs with
  | nil =>
    intro s e v hen hlk hinit hv
    simp only [List.map_nil, run, List.foldl_nil, List.length_nil, Nat.add_zero,
      List.reverse_nil, List.nil_append]
    have he : ({ e with hits := e.hits } : Entry T) = e := rfl
    rw [he, insertEntry_self key s.cacheables e hlk]
  | cons c rest ih =>
    intro s e v hen hlk hinit hv
    have hstep := step_call_cacheOnly s c key now e options hen hlk hinit hopt
    have hlk1 : lookupEntry key (insertEntry key { e with hits := e.hits + 1 } s.cacheables) =
        some { e with hits := e.hits + 1 } := by
      rw [lookupEntry_insertEntry key { e with hits := e.hits + 1 } s.cacheables e hlk key]
      simp
    have hih := ih
      { s with
        cacheables := insertEntry key { e with hits := e.hits + 1 } s.cacheables
        results := (c, Except.ok e.value) :: s.results }
      { e with hits := e.hits + 1 } v hen hlk1 hinit hv
    simp only [run, List.map_cons, List.foldl_cons] at hih ⊢
    rw [hstep, hih]
    have harith : e.hits + 1 + rest.length = e.hits + (rest.length + 1) := by omega
    simp [insertEntry_insertEntry, hv, harith]

/-- C10: under stale-while-revalidate, `maxAge = 0` is falsy in the guard
`(maxAge && Date.now() > lastFetch + maxAge) || !maxAge`, so `touch` with
`maxAge = 0` behaves identically to `touch` with `maxAge` omitted; in
particular, on an initialized entry with no fetch in flight it always
starts a background refresh while serving the cached value. -/
theorem C10_swr_zero_maxAge_as_absent {T : Type} (e : Entry T) (now fid : Nat) :
    touchSync e (some (CacheableOptions.staleWhileRevalidate (some 0))) now fid =
      touchSync e (some (CacheableOptions.staleWhileRevalidate none)) now fid ∧
    (e.inited = true → e.promise = none →
      (touchSync e (some (CacheableOptions.staleWhileRevalidate (some 0))) now fid).2 =
        SyncAct.hitAndStart e.value) := by
  constructor
  · cases h : e.inited <;>
      simp [touchSync, handlePreInit, handleSwr, truthyMaxAge, h]
  · intro hinit hp
    simp [touchSync, hinit, handleSwr, truthyMaxAge, isFetching, hp, fetchSync]

/-- Witness for C10 at a concrete initialized idle entry. -/
theorem C10_swr_zero_maxAge_as_absent_witness :
    (touchSync (⟨0, 0, true, none, some 7⟩ : Entry Nat)
      (some (CacheableOptions.staleWhileRevalidate (some 0))) 5 1 =
      touchSync (⟨0, 0, true, none, some 7⟩ : Entry Nat)
      (some (CacheableOptions.staleWhileRevalidate none)) 5 1) ∧
    (touchSync (⟨0, 0, true, none, some 7⟩ : Entry Nat)
      (some (CacheableOptions.staleWhileRevalidate (some 0))) 5 1).2 =
      SyncAct.hitAndStart (some 7) := by
  have h := C10_swr_zero_maxAge_as_absent
    (⟨0, 0, true, none, some 7⟩ : Entry Nat) 5 1
  exact ⟨h.1, h.2 rfl rfl⟩

/-- C5 counterexample: entry fetched at t=0 with `maxAge = 100`; at
`now = 100` the elapsed time equals `maxAge` (so the claim's
`now - lastFetchTimestamp >= maxAge` holds), yet the code's strict
comparison `Date.now() > lastFetch + maxAge` is false and the call is a
cache hit — no fetch is triggered. -/
theorem C5_boundary_counterexample :
    (100 : Nat) ≥ 0 + 100 ∧
    startsFetch (touchSync (⟨0, 0, true, none, some 7⟩ : Entry Nat)
      (some (CacheableOptions.maxAge 100)) 100 1).2 = false ∧
    (touchSync (⟨0, 0, true, none, some 7⟩ : Entry Nat)
      (some (CacheableOptions.maxAge 100)) 100 1) =
      ((⟨1, 0, true, none, some 7⟩ : Entry Nat), SyncAct.hit (some 7)) := by
  refine ⟨by decide, by decide, by decide⟩

/-- C5 (amended): for the max-age policy on an initialized entry, a fetch
is triggered iff the elapsed time strictly exceeds `maxAge`
(`now > lastFetch + maxAge`): in that case the call behaves like
network-only-non-concurrent (joins the in-flight fetch, or starts a new
one setting `lastFetch` to the new fetch's start time); otherwise —
including at the exact boundary where the elapsed time equals `maxAge` —
it serves the cached value and increments `hits`. -/
theorem C5_maxAge_policy {T : Type} (e : Entry T) (m now fid : Nat)
    (hinit : e.inited = true) :
    (now ≤ e.lastFetch + m →
      touchSync e (some (CacheableOptions.maxAge m)) now fid =
        ({ e with hits := e.hits + 1 }, SyncAct.hit e.value)) ∧
    (now > e.lastFetch + m → e.promise = none →
      touchSync e (some (CacheableOptions.maxAge m)) now fid =
        ({ e with lastFetch := now, promise := some fid }, SyncAct.startFetch)) ∧
    (∀ f, now > e.lastFetch + m → e.promise = some f →
      touchSync e (some (CacheableOptions.maxAge m)) now fid = (e, SyncAct.join f)) := by
  refine ⟨?_, ?_, ?_⟩
  · intro hle
    have hnot : ¬(now > e.lastFetch + m) := by omega
    simp [touchSync, hinit, handleMaxAge, hnot]
  · intro hgt hp
    simp [touchSync, hinit, handleMaxAge, hgt, fetchNonConcurrentSync, hp, fetchSync]
  · intro f hgt hp
    simp [touchSync, hinit, handleMaxAge, hgt, fetchNonConcurrentSync, hp]

/-- Witness for C5 (amended) at a concrete entry: a hit at the boundary
`now = lastFetch + maxAge` and a fresh fetch one tick later. -/
theorem C5_maxAge_policy_witness :
    touchSync (⟨0, 0, true, none, some 7⟩ : Entry Nat) (some (CacheableOptions.maxAge 100)) 100 1 =
      ((⟨1, 0, true, none, some 7⟩ : Entry Nat), SyncAct.hit (some 7)) ∧
    touchSync (⟨0, 0, true, none, some 7⟩ : Entry Nat) (some (CacheableOptions.maxAge 100)) 101 1 =
      ((⟨0, 101, true, some 1, some 7⟩ : Entry Nat), SyncAct.startFetch) := by
  have h := C5_maxAge_policy (⟨0, 0, true, none, some 7⟩ : Entry Nat) 100 100 1 rfl
  have h2 := C5_maxAge_policy (⟨0, 0, true, none, some 7⟩ : Entry Nat) 100 101 1 rfl
  exact ⟨h.1 (by decide), h2.2.1 (by decide) rfl⟩

/-- C3 counterexample: with an uninitialized entry and a fetch already in
flight (put there by a first non-concurrent call), a `network-only` call
does not join the in-flight fetch as the claim asserts: it invokes the
fetch function a second time, leaving two pending fetches. -/
theorem C3_networkOnly_preinit_counterexample :
    (run (Sys.init Nat Nat true)
      [Event.call 0 "k" (some CacheableOptions.networkOnlyNonConcurrent) 0]).pending.length
      = 1 ∧
    (run (Sys.init Nat Nat true)
      [Event.call 0 "k" (some CacheableOptions.networkOnlyNonConcurrent) 0,
       Event.call 1 "k" (some CacheableOptions.networkOnly) 0]).fetchCount = 2 ∧
    (run (Sys.init Nat Nat true)
      [Event.call 0 "k" (some CacheableOptions.networkOnlyNonConcurrent) 0,
       Event.call 1 "k" (some CacheableOptions.networkOnly) 0]).pending.length = 2 := by
  refine ⟨rfl, rfl, rfl⟩

/-- C3 (amended): while an entry is uninitialized, every `touch` — under
any of the five policies or with no options — performs a fetch: with a
fetch in flight, every policy except `network-only` joins that same
pending fetch instead of starting a duplicate, but `network-only` starts a
new fetch unconditionally even pre-init; with no fetch in flight, every
policy starts one. -/
theorem C3_preinit_fetches {T : Type} (e : Entry T)
    (options : Option CacheableOptions) (now fid : Nat)
    (hinit : e.inited = false) :
    (∀ f, e.promise = some f → options ≠ some CacheableOptions.networkOnly →
      touchSync e options now fid = (e, SyncAct.join f)) ∧
    (e.promise = none →
      touchSync e options now fid = (fetchSync e now fid, SyncAct.startFetch)) ∧
    (touchSync e (some CacheableOptions.networkOnly) now fid =
      (fetchSync e now fid, SyncAct.startFetch)) := by
  refine ⟨?_, ?_, ?_⟩
  · intro f hp hno
    cases options with
    | none => simp [touchSync, hinit, handlePreInit, fetchNonConcurrentSync, hp]
    | some p =>
      cases p with
      | networkOnly => exact absurd rfl hno
      | cacheOnly => simp [touchSync, hinit, handlePreInit, fetchNonConcurrentSync, hp]
      | networkOnlyNonConcurrent =>
        simp [touchSync, hinit, handlePreInit, fetchNonConcurrentSync, hp]
      | maxAge m => simp [touchSync, hinit, handlePreInit, fetchNonConcurrentSync, hp]
      | staleWhileRevalidate mA =>
        simp [touchSync, hinit, handlePreInit, fetchNonConcurrentSync, hp]
  · intro hp
    cases options with
    | none => simp [touchSync, hinit, handlePreInit, fetchNonConcurrentSync, hp]
    | some p =>
      cases p <;> simp [touchSync, hinit, handlePreInit, fetchNonConcurrentSync, hp]
  · simp [touchSync, hinit, handlePreInit]

/-- Witness for C3 (amended): an uninitialized entry with fetch 0 in
flight — a max-age call joins fetch 0; an idle uninitialized entry — a
cache-only call starts a fetch; network-only starts one even with fetch 0
in flight. -/
theorem C3_preinit_fetches_witness :
    touchSync (⟨0, 0, false, some 0, none⟩ : Entry Nat) (some (CacheableOptions.maxAge 50)) 9 1 =
      ((⟨0, 0, false, some 0, none⟩ : Entry Nat), SyncAct.join 0) ∧
    touchSync (⟨0, 0, false, none, none⟩ : Entry Nat) (some CacheableOptions.cacheOnly) 9 1 =
      ((⟨0, 9, false, some 1, none⟩ : Entry Nat), SyncAct.startFetch) ∧
    touchSync (⟨0, 0, false, some 0, none⟩ : Entry Nat) (some CacheableOptions.networkOnly) 9 1 =
      ((⟨0, 9, false, some 1, none⟩ : Entry Nat), SyncAct.startFetch) := by
  have h1 := C3_preinit_fetches (⟨0, 0, false, some 0, none⟩ : Entry Nat)
    (some (CacheableOptions.maxAge 50)) 9 1 rfl
  have h2 := C3_preinit_fetches (⟨0, 0, false, none, none⟩ : Entry Nat)
    (some CacheableOptions.cacheOnly) 9 1 rfl
  have h3 := C3_preinit_fetches (⟨0, 0, false, some 0, none⟩ : Entry Nat)
    (some CacheableOptions.networkOnly) 9 1 rfl
  exact ⟨h1.1 0 rfl (by decide), h2.2.1 rfl, h3.2.2⟩

theorem runWaiters_promise_none {T E : Type} (outcome : Except E T) :
    ∀ (ws : List Waiter) (e : Entry T), e.promise = none →
      (runWaiters outcome e ws).1.promise = none := by
  intro ws
  induction ws with
  | nil => intro e hp; simpa [runWaiters] using hp
  | cons w rest ih =>
    intro e hp
    cases outcome with
    | ok v =>
      cases w with
      | owner cid =>
        simpa [runWaiters, applyWaiter] using
          ih { e with value := some v, inited := true, promise := none } rfl
      | joiner cid =>
        simpa [runWaiters, applyWaiter] using ih { e with hits := e.hits + 1 } hp
      | direct cid =>
        simpa [runWaiters, applyWaiter] using ih e hp
    | error err =>
      cases w with
      | owner cid =>
        simpa [runWaiters, applyWaiter] using ih { e with promise := none } rfl
      | joiner cid =>
        simpa [runWaiters, applyWaiter] using ih e hp
      | direct cid =>
        simpa [runWaiters, applyWaiter] using ih e hp

theorem runWaiters_owner_clears {T E : Type} (outcome : Except E T) :
    ∀ (ws : List Waiter) (e : Entry T) (co : Option Nat), Waiter.owner co ∈ ws →
      (runWaiters outcome e ws).1.promise = none := by
  intro ws
  induction ws with
  | nil => intro e co h; simp at h
  | cons w rest ih =>
    intro e co h
    rcases List.mem_cons.mp h with heq | hmem
    · subst heq
      cases outcome with
      | ok v =>
        simpa [runWaiters, applyWaiter] using
          runWaiters_promise_none (Except.ok v) rest
            { e with value := some v, inited := true, promise := none } rfl
      | error err =>
        simpa [runWaiters, applyWaiter] using
          runWaiters_promise_none (Except.error err) rest { e with promise := none } rfl
    · cases outcome with
      | ok v =>
        cases w with
        | owner cid =>
          simpa [runWaiters, applyWaiter] using
            ih { e with value := some v, inited := true, promise := none } co hmem
        | joiner cid =>
          simpa [runWaiters, applyWaiter] using ih { e with hits := e.hits + 1 } co hmem
        | direct cid =>
          simpa [runWaiters, applyWaiter] using ih e co hmem
      | error err =>
        cases w with
        | owner cid =>
          simpa [runWaiters, applyWaiter] using ih { e with promise := none } co hmem
        | joiner cid =>
          simpa [runWaiters, applyWaiter] using ih e co hmem
        | direct cid =>
          simpa [runWaiters, applyWaiter] using ih e co hmem

theorem touchSync_startsFetch_state {T : Type} (e : Entry T)
    (options : Option CacheableOptions) (now fid : Nat)
    (h : startsFetch (touchSync e options now fid).2 = true) :
    (touchSync e options now fid).1.promise = some fid ∧
    (touchSync e options now fid).1.lastFetch = now := by
  rcases options with _ | p
  · cases hinit : e.inited
    · cases hp : e.promise <;>
        simp [touchSync, hinit, handlePreInit, fetchNonConcurrentSync, hp, fetchSync,
          startsFetch] at h ⊢
    · simp [touchSync, hinit, handleCacheOnly, startsFetch] at h
  · cases p
    case cacheOnly =>
      cases hinit : e.inited
      · cases hp : e.promise <;>
          simp [touchSync, hinit, handlePreInit, fetchNonConcurrentSync, hp, fetchSync,
            startsFetch] at h ⊢
      · simp [touchSync, hinit, handleCacheOnly, startsFetch] at h
    case networkOnly =>
      cases hinit : e.inited <;>
        simp [touchSync, hinit, handlePreInit, fetchSync, startsFetch]
    case networkOnlyNonConcurrent =>
      cases hinit : e.inited <;>
        cases hp : e.promise <;>
          simp [touchSync, hinit, handlePreInit, fetchNonConcurrentSync, hp, fetchSync,
            startsFetch] at h ⊢
    case maxAge m =>
      cases hinit : e.inited
      · cases hp : e.promise <;>
          simp [touchSync, hinit, handlePreInit, fetchNonConcurrentSync, hp, fetchSync,
            startsFetch] at h ⊢
      · by_cases hc : now > e.lastFetch + m
        · cases hp : e.promise <;>
            simp [touchSync, hinit, handleMaxAge, hc, fetchNonConcurrentSync, hp,
              fetchSync, startsFetch] at h ⊢
        · simp [touchSync, hinit, handleMaxAge, hc, startsFetch] at h
    case staleWhileRevalidate mA =>
      cases hinit : e.inited
      · cases hp : e.promise <;>
          simp [touchSync, hinit, handlePreInit, fetchNonConcurrentSync, hp, fetchSync,
            startsFetch] at h ⊢
      · by_cases hc : (!(isFetching e) &&
            ((truthyMaxAge mA && decide (now > e.lastFetch + mA.getD 0)) ||
              !(truthyMaxAge mA))) = true
        · simp [touchSync, hinit, handleSwr, hc, fetchSync, startsFetch]
        · simp [touchSync, hinit, handleSwr, hc, startsFetch] at h

theorem touchSync_no_start_while_fetching {T : Type} (e : Entry T)
    (options : Option CacheableOptions) (now fid f : Nat)
    (hp : e.promise = some f)
    (hno : options ≠ some CacheableOptions.networkOnly) :
    startsFetch (touchSync e options now fid).2 = false := by
  have hfetching : isFetching e = true := by simp [isFetching, hp]
  rcases options with _ | p
  · cases hinit : e.inited <;>
      simp [touchSync, hinit, handlePreInit, fetchNonConcurrentSync, hp,
        handleCacheOnly, startsFetch]
  · cases p
    case cacheOnly =>
      cases hinit : e.inited <;>
        simp [touchSync, hinit, handlePreInit, fetchNonConcurrentSync, hp,
          handleCacheOnly, startsFetch]
    case networkOnly => exact absurd rfl hno
    case networkOnlyNonConcurrent =>
      cases hinit : e.inited <;>
        simp [touchSync, hinit, handlePreInit, fetchNonConcurrentSync, hp, startsFetch]
    case maxAge m =>
      cases hinit : e.inited
      · simp [touchSync, hinit, handlePreInit, fetchNonConcurrentSync, hp, startsFetch]
      · by_cases hc : now > e.lastFetch + m <;>
          simp [touchSync, hinit, handleMaxAge, hc, fetchNonConcurrentSync, hp,
            startsFetch]
    case staleWhileRevalidate mA =>
      cases hinit : e.inited
      · simp [touchSync, hinit, handlePreInit, fetchNonConcurrentSync, hp, startsFetch]
      · simp [touchSync, hinit, handleSwr, hfetching, startsFetch]

/-- C6 counterexample: two overlapping `network-only` fetches for key
`"k"`; when the first fetch settles, its `finally` clears `#promise`
unconditionally, so the entry's in-flight handle is empty while the second
fetch is still pending — the handle is not "populated exactly while some
fetch is pending". -/
theorem C6_overlap_counterexample :
    (lookupEntry "k" (run (Sys.init Nat Nat true)
      [Event.call 0 "k" (some CacheableOptions.networkOnly) 0,
       Event.call 1 "k" (some CacheableOptions.networkOnly) 1,
       Event.settle 0 (Except.ok 7)]).cacheables).map Entry.promise = some none ∧
    (run (Sys.init Nat Nat true)
      [Event.call 0 "k" (some CacheableOptions.networkOnly) 0,
       Event.call 1 "k" (some CacheableOptions.networkOnly) 1,
       Event.settle 0 (Except.ok 7)]).pending =
      [(1, "k", [Waiter.owner (some 1)])] := by
  refine ⟨rfl, rfl⟩

/-- C6 (amended): the entry owns at most one in-flight handle; every fetch
start stores the new fetch's promise as the handle, and the settlement of
any owned fetch clears the handle unconditionally (success or failure);
under every policy except `network-only`, no new fetch ever starts while
the handle is populated (callers join or are served instead), so without
overlapping `network-only` fetches the handle is populated exactly while
the fetch it references is pending — but an overlapping `network-only`
fetch is clobbered from the handle when the earlier fetch settles, leaving
a pending fetch with no handle. -/
theorem C6_inflight_handle {T E : Type} :
    (∀ (s : Sys T E) (fid : Nat) (outcome : Except E T) (key : String)
      (ws : List Waiter) (rest : List (Nat × String × List Waiter))
      (e : Entry T) (co : Option Nat),
      takePending fid s.pending = some ((key, ws), rest) →
      Waiter.owner co ∈ ws →
      lookupEntry key s.cacheables = some e →
      (lookupEntry key (step s (Event.settle fid outcome)).cacheables).map
        Entry.promise = some none) ∧
    (∀ (e : Entry T) (options : Option CacheableOptions) (now fid : Nat),
      startsFetch (touchSync e options now fid).2 = true →
      (touchSync e options now fid).1.promise = some fid) ∧
    (∀ (e : Entry T) (options : Option CacheableOptions) (now fid f : Nat),
      e.promise = some f → options ≠ some CacheableOptions.networkOnly →
      startsFetch (touchSync e options now fid).2 = false) := by
  refine ⟨?_, ?_, ?_⟩
  · intro s fid outcome key ws rest e co htake hmem hlk
    simp only [step, htake, hlk]
    rw [lookupEntry_insertEntry key _ s.cacheables e hlk key]
    simp [runWaiters_owner_clears outcome ws e co hmem]
  · intro e options now fid h
    exact (touchSync_startsFetch_state e options now fid h).1
  · intro e options now fid f hp hno
    exact touchSync_no_start_while_fetching e options now fid f hp hno

/-- Witness for C6 (amended): settling the only pending fetch of a
one-entry system clears the handle; a network-only-non-concurrent start
populates it; a joined call starts nothing while fetch 0 is in flight. -/
theorem C6_inflight_handle_witness :
    (lookupEntry "k" (step
      ({ enabled := true,
         cacheables := [("k", (⟨0, 0, false, some 0, none⟩ : Entry Nat))],
         pending := [(0, "k", [Waiter.owner (some 0)])],
         results := [], nextFid := 1, fetchCount := 1 } : Sys Nat Nat)
      (Event.settle 0 (Except.ok 7))).cacheables).map Entry.promise = some none ∧
    (touchSync ((⟨0, 0, true, none, some 7⟩ : Entry Nat))
      (some CacheableOptions.networkOnlyNonConcurrent) 5 3).1.promise = some 3 ∧
    startsFetch (touchSync ((⟨0, 0, true, some 0, some 7⟩ : Entry Nat))
      (some CacheableOptions.networkOnlyNonConcurrent) 5 3).2 = false := by
  refine ⟨?_, ?_, ?_⟩
  · exact (C6_inflight_handle (T := Nat) (E := Nat)).1
      ({ enabled := true,
         cacheables := [("k", (⟨0, 0, false, some 0, none⟩ : Entry Nat))],
         pending := [(0, "k", [Waiter.owner (some 0)])],
         results := [], nextFid := 1, fetchCount := 1 } : Sys Nat Nat)
      0 (Except.ok 7) "k" [Waiter.owner (some 0)] [] (⟨0, 0, false, some 0, none⟩ : Entry Nat)
      (some 0) (by decide) (by decide) (by decide)
  · exact (C6_inflight_handle (T := Nat) (E := Nat)).2.1
      (⟨0, 0, true, none, some 7⟩ : Entry Nat)
      (some CacheableOptions.networkOnlyNonConcurrent) 5 3 (by decide)
  · exact (C6_inflight_handle (T := Nat) (E := Nat)).2.2
      (⟨0, 0, true, some 0, some 7⟩ : Entry Nat)
      (some CacheableOptions.networkOnlyNonConcurrent) 5 3 0 (by decide) (by decide)

theorem step_settle_error_cacheables {T E : Type} (s : Sys T E) (fid : Nat) (err : E)
    (k : String) :
    (lookupEntry k (step s (Event.settle fid (Except.error err))).cacheables).map
        (fun e => (e.value, e.hits, e.inited, e.lastFetch)) =
      (lookupEntry k s.cacheables).map
        (fun e => (e.value, e.hits, e.inited, e.lastFetch)) := by
  cases htake : takePending fid s.pending with
  | none => simp [step, htake]
  | some r =>
    obtain ⟨⟨key, ws⟩, rest⟩ := r
    cases hlk : lookupEntry key s.cacheables with
    | none => simp [step, htake, hlk]
    | some e =>
      simp only [step, htake, hlk]
      rw [lookupEntry_insertEntry key (runWaiters (Except.error err) e ws).1
        s.cacheables e hlk k]
      by_cases hk : k = key
      · subst hk
        rw [if_pos rfl, hlk]
        obtain ⟨h1, h2, h3, h4⟩ := runWaiters_error_entry err ws e
        simp [h1, h2, h3, h4]
      · rw [if_neg hk]

theorem step_settle_error_results {T E : Type} (s : Sys T E) (fid : Nat) (err : E)
    (key : String) (ws : List Waiter) (rest : List (Nat × String × List Waiter))
    (htake : takePending fid s.pending = some ((key, ws), rest)) :
    (step s (Event.settle fid (Except.error err))).results =
      ((waiterCids ws).reverse).map
        (fun c => (c, (Except.error err : CallResult T E))) ++ s.results := by
  simp only [step, htake]
  cases hlk : lookupEntry key s.cacheables <;>
    simp [runWaiters_error_results]

/-- C1 counterexample: entry for key `"k"` is initialized at `t = 0` by a
successful fetch (so `lastFetch = 0`); a later non-concurrent fetch
started at `t = 5` rejects, and afterwards `lastFetch = 5 ≠ 0`: the failed
attempt did not leave `lastFetchTimestamp` as it was before, because
`#fetch` sets `#lastFetch = Date.now()` when the fetch starts and never
restores it on rejection. (The cached value is untouched.) -/
theorem C1_lastFetch_counterexample :
    (lookupEntry "k" (run (Sys.init Nat Nat true)
      [Event.call 0 "k" none 0, Event.settle 0 (Except.ok 7)]).cacheables).map
        Entry.lastFetch = some 0 ∧
    (lookupEntry "k" (run (Sys.init Nat Nat true)
      [Event.call 0 "k" none 0, Event.settle 0 (Except.ok 7),
       Event.call 1 "k" (some CacheableOptions.networkOnlyNonConcurrent) 5,
       Event.settle 1 (Except.error 9)]).cacheables).map Entry.lastFetch = some 5 ∧
    (lookupEntry "k" (run (Sys.init Nat Nat true)
      [Event.call 0 "k" none 0, Event.settle 0 (Except.ok 7),
       Event.call 1 "k" (some CacheableOptions.networkOnlyNonConcurrent) 5,
       Event.settle 1 (Except.error 9)]).cacheables).map Entry.value = some (some 7) ∧
    (run (Sys.init Nat Nat true)
      [Event.call 0 "k" none 0, Event.settle 0 (Except.ok 7),
       Event.call 1 "k" (some CacheableOptions.networkOnlyNonConcurrent) 5,
       Event.settle 1 (Except.error 9)]).results.head? = some (1, Except.error 9) := by
  refine ⟨rfl, rfl, rfl, rfl⟩

/-- C1 (amended): when a fetch rejects, the settlement leaves every
entry's stored `value` (as well as `hits` and the initialization flag)
exactly as before, records only rejection results, and propagates the
rejection to every caller awaiting that specific fetch — so the rejected
result is never stored nor later served as a cached value; the entry's
`lastFetchTimestamp`, however, was already set to the fetch's start time
when the fetch began and is not restored by the failed settlement (the
settlement itself leaves it unchanged). -/
theorem C1_failure_semantics {T E : Type} (s : Sys T E) (fid : Nat) (err : E) :
    (∀ k, (lookupEntry k (step s (Event.settle fid (Except.error err))).cacheables).map
        (fun e => (e.value, e.hits, e.inited, e.lastFetch)) =
      (lookupEntry k s.cacheables).map
        (fun e => (e.value, e.hits, e.inited, e.lastFetch))) ∧
    (∀ p ∈ (step s (Event.settle fid (Except.error err))).results,
      p ∈ s.results ∨ p.2 = Except.error err) ∧
    (∀ key ws rest, takePending fid s.pending = some ((key, ws), rest) →
      ∀ c ∈ waiterCids ws,
        (c, (Except.error err : CallResult T E)) ∈
          (step s (Event.settle fid (Except.error err))).results) ∧
    (∀ (e : Entry T) (options : Option CacheableOptions) (now nfid : Nat),
      startsFetch (touchSync e options now nfid).2 = true →
      (touchSync e options now nfid).1.lastFetch = now) := by
  refine ⟨?_, ?_, ?_, ?_⟩
  · intro k
    exact step_settle_error_cacheables s fid err k
  · intro p hp
    cases htake : takePending fid s.pending with
    | none =>
      left
      simpa [step, htake] using hp
    | some r =>
      obtain ⟨⟨key, ws⟩, rest⟩ := r
      rw [step_settle_error_results s fid err key ws rest htake] at hp
      rcases List.mem_append.mp hp with hmem | hmem
      · right
        obtain ⟨c, _, hc⟩ := List.mem_map.mp hmem
        rw [← hc]
      · left; exact hmem
  · intro key ws rest htake c hc
    rw [step_settle_error_results s fid err key ws rest htake]
    exact List.mem_append.mpr (Or.inl (List.mem_map.mpr
      ⟨c, List.mem_reverse.mpr hc, rfl⟩))
  · intro e options now nfid h
    exact (touchSync_startsFetch_state e options now nfid h).2

/-- Witness for C1 (amended) on a concrete one-entry system whose pending
fetch 0 (owned by caller 0, joined by caller 1) rejects with error 9. -/
theorem C1_failure_semantics_witness :
    (lookupEntry "k" (step
      ({ enabled := true,
         cacheables := [("k", (⟨2, 4, true, some 0, some 7⟩ : Entry Nat))],
         pending := [(0, "k", [Waiter.owner (some 0), Waiter.joiner 1])],
         results := [], nextFid := 1, fetchCount := 1 } : Sys Nat Nat)
      (Event.settle 0 (Except.error 9))).cacheables).map
        (fun e => (e.value, e.hits, e.inited, e.lastFetch)) =
      some (some 7, 2, true, 4) ∧
    (0, (Except.error 9 : CallResult Nat Nat)) ∈ (step
      ({ enabled := true,
         cacheables := [("k", (⟨2, 4, true, some 0, some 7⟩ : Entry Nat))],
         pending := [(0, "k", [Waiter.owner (some 0), Waiter.joiner 1])],
         results := [], nextFid := 1, fetchCount := 1 } : Sys Nat Nat)
      (Event.settle 0 (Except.error 9))).results ∧
    (1, (Except.error 9 : CallResult Nat Nat)) ∈ (step
      ({ enabled := true,
         cacheables := [("k", (⟨2, 4, true, some 0, some 7⟩ : Entry Nat))],
         pending := [(0, "k", [Waiter.owner (some 0), Waiter.joiner 1])],
         results := [], nextFid := 1, fetchCount := 1 } : Sys Nat Nat)
      (Event.settle 0 (Except.error 9))).results := by
  have h := C1_failure_semantics
    ({ enabled := true,
       cacheables := [("k", (⟨2, 4, true, some 0, some 7⟩ : Entry Nat))],
       pending := [(0, "k", [Waiter.owner (some 0), Waiter.joiner 1])],
       results := [], nextFid := 1, fetchCount := 1 } : Sys Nat Nat) 0 9
  refine ⟨?_, ?_, ?_⟩
  · exact (h.1 "k").trans rfl
  · exact h.2.2.1 "k" [Waiter.owner (some 0), Waiter.joiner 1] [] (by decide) 0 (by decide)
  · exact h.2.2.1 "k" [Waiter.owner (some 0), Waiter.joiner 1] [] (by decide) 1 (by decide)

/-- C7: on an entry whose first fetch has completed successfully
(`inited = true` with cached `value = some v`), any number of further
`cacheable` calls with the cache-only policy — or with no options, which
defaults to cache-only — never invoke the fetch function (the total
resource-invocation count is unchanged), each return the same cached
value `v`, and each increment `hits` by one. -/
theorem C7_cacheOnly_idempotent {T E : Type} (s : Sys T E) (key : String)
    (e : Entry T) (v : T) (cs : List Nat) (options : Option CacheableOptions)
    (now : Nat)
    (hen : s.enabled = true)
    (hlk : lookupEntry key s.cacheables = some e)
    (hinit : e.inited = true)
    (hv : e.value = some v)
    (hopt : options = none ∨ options = some CacheableOptions.cacheOnly) :
    (run s (cs.map (fun c => Event.call c key options now))).fetchCount =
      s.fetchCount ∧
    (∀ c ∈ cs, (c, (Except.ok (some v) : CallResult T E)) ∈
      (run s (cs.map (fun c => Event.call c key options now))).results) ∧
    lookupEntry key (run s (cs.map (fun c => Event.call c key options now))).cacheables =
      some { e with hits := e.hits + cs.length } := by
  have h := run_cacheOnly_serves key now options hopt cs s e v hen hlk hinit hv
  rw [h]
  refine ⟨rfl, ?_, ?_⟩
  · intro c hc
    exact List.mem_append.mpr (Or.inl (List.mem_map.mpr
      ⟨c, List.mem_reverse.mpr hc, rfl⟩))
  · rw [lookupEntry_insertEntry key { e with hits := e.hits + cs.length }
      s.cacheables e hlk key]
    simp

/-- Witness for C7: three cache-only calls on a one-entry system with one
prior successful fetch (`fetchCount = 1`, cached value 7): the invocation
count stays 1, each caller gets 7, hits goes from 0 to 3. -/
theorem C7_cacheOnly_idempotent_witness :
    (run (⟨true, [("k", (⟨0, 0, true, none, some 7⟩ : Entry Nat))], [], [], 1, 1⟩ : Sys Nat Nat)
      ([1, 2, 3].map (fun c => Event.call c "k" none 5))).fetchCount = 1 ∧
    (∀ c ∈ [1, 2, 3], (c, (Except.ok (some 7) : CallResult Nat Nat)) ∈
      (run (⟨true, [("k", (⟨0, 0, true, none, some 7⟩ : Entry Nat))], [], [], 1, 1⟩ : Sys Nat Nat)
      ([1, 2, 3].map (fun c => Event.call c "k" none 5))).results) ∧
    lookupEntry "k" (run (⟨true, [("k", (⟨0, 0, true, none, some 7⟩ : Entry Nat))], [], [], 1, 1⟩ : Sys Nat Nat)
      ([1, 2, 3].map (fun c => Event.call c "k" none 5))).cacheables =
      some (⟨3, 0, true, none, some 7⟩ : Entry Nat) := by
  exact C7_cacheOnly_idempotent
    (⟨true, [("k", (⟨0, 0, true, none, some 7⟩ : Entry Nat))], [], [], 1, 1⟩ : Sys Nat Nat)
    "k" (⟨0, 0, true, none, some 7⟩ : Entry Nat) 7 [1, 2, 3] none 5
    rfl rfl rfl rfl (Or.inl rfl)

theorem run_cons_append_settle {T E : Type} (s : Sys T E) (x y : Event T E)
    (l : List (Event T E)) :
    run s (x :: l ++ [y]) = step (run (step s x) l) y := by
  simp [run, List.foldl_append]

/-- C2: network-only-non-concurrent on an initialized idle entry — one
caller starts the fetch and any number of further concurrent callers join
it; when that single fetch resolves with `v`, exactly one fetch-function
invocation has happened in total and every caller (starter and joiners
alike) resolves to `v`, the value produced by the joined fetch; no fetch
remains pending afterwards, so no later fetch's result is involved. -/
theorem C2_nonc_join {T E : Type} (s : Sys T E) (key : String) (e : Entry T)
    (c : Nat) (cs : List Nat) (now now2 : Nat) (v : T) (evs : List (Event T E))
    (hen : s.enabled = true)
    (hlk : lookupEntry key s.cacheables = some e)
    (hinit : e.inited = true)
    (hp : e.promise = none)
    (hpend : s.pending = [])
    (hevs : evs = Event.call c key (some CacheableOptions.networkOnlyNonConcurrent) now ::
      cs.map (fun c2 =>
        Event.call c2 key (some CacheableOptions.networkOnlyNonConcurrent) now2) ++
      [Event.settle s.nextFid (Except.ok v)]) :
    (run s evs).fetchCount = s.fetchCount + 1 ∧
    (c, (Except.ok (some v) : CallResult T E)) ∈ (run s evs).results ∧
    (∀ c2 ∈ cs, (c2, (Except.ok (some v) : CallResult T E)) ∈ (run s evs).results) ∧
    (run s evs).pending = [] := by
  subst hevs
  have hstep1 := step_call_startFetch_nonc s c key now e hen hlk hinit hp
  have e1lk : lookupEntry key (insertEntry key (fetchSync e now s.nextFid) s.cacheables) =
      some (fetchSync e now s.nextFid) := by
    rw [lookupEntry_insertEntry key (fetchSync e now s.nextFid) s.cacheables e hlk key]
    simp
  have hjoin2 : run
      { s with
        cacheables := insertEntry key (fetchSync e now s.nextFid) s.cacheables
        pending := s.pending ++ [(s.nextFid, key, [Waiter.owner (some c)])]
        nextFid := s.nextFid + 1
        fetchCount := s.fetchCount + 1 }
      (cs.map (fun c2 =>
        Event.call c2 key (some CacheableOptions.networkOnlyNonConcurrent) now2)) =
      { s with
        cacheables := insertEntry key (fetchSync e now s.nextFid) s.cacheables
        pending := [(s.nextFid, key, Waiter.owner (some c) :: cs.map Waiter.joiner)]
        nextFid := s.nextFid + 1
        fetchCount := s.fetchCount + 1 } :=
    run_nonc_joins key now2 s.nextFid cs
      { s with
        cacheables := insertEntry key (fetchSync e now s.nextFid) s.cacheables
        pending := s.pending ++ [(s.nextFid, key, [Waiter.owner (some c)])]
        nextFid := s.nextFid + 1
        fetchCount := s.fetchCount + 1 }
      (fetchSync e now s.nextFid) [Waiter.owner (some c)] hen e1lk hinit rfl
      (by simp [hpend])
  have hsettle : step
      { s with
        cacheables := insertEntry key (fetchSync e now s.nextFid) s.cacheables
        pending := [(s.nextFid, key, Waiter.owner (some c) :: cs.map Waiter.joiner)]
        nextFid := s.nextFid + 1
        fetchCount := s.fetchCount + 1 }
      (Event.settle s.nextFid (Except.ok v)) =
      { s with
        cacheables := insertEntry key
          (⟨e.hits + cs.length, now, true, none, some v⟩ : Entry T)
          (insertEntry key (fetchSync e now s.nextFid) s.cacheables)
        pending := []
        results := ((cs.reverse).map (fun c2 => (c2, Except.ok (some v))) ++
          [(c, Except.ok (some v))]) ++ s.results
        nextFid := s.nextFid + 1
        fetchCount := s.fetchCount + 1 } := by
    have e1lk2 := e1lk
    simp only [fetchSync] at e1lk2
    simp [step, takePending, e1lk2, runWaiters_ok_owner_joiners, fetchSync]
  rw [run_cons_append_settle, hstep1, hjoin2, hsettle]
  refine ⟨rfl, ?_, ?_, rfl⟩
  · exact List.mem_append.mpr (Or.inl (List.mem_append.mpr
      (Or.inr (List.mem_singleton.mpr rfl))))
  · intro c2 hc2
    exact List.mem_append.mpr (Or.inl (List.mem_append.mpr (Or.inl
      (List.mem_map.mpr ⟨c2, List.mem_reverse.mpr hc2, rfl⟩))))

/-- Witness for C2: three concurrent non-concurrent-policy callers (ids 1,
2, 3) on an initialized idle entry; the joined fetch 1 resolves to 42; the
invocation count goes from 1 to 2 (one new fetch) and all three callers
get 42. -/
theorem C2_nonc_join_witness :
    (run (⟨true, [("k", (⟨0, 0, true, none, some 7⟩ : Entry Nat))], [], [], 1, 1⟩ : Sys Nat Nat)
      (Event.call 1 "k" (some CacheableOptions.networkOnlyNonConcurrent) 10 ::
        [2, 3].map (fun c2 =>
          Event.call c2 "k" (some CacheableOptions.networkOnlyNonConcurrent) 10) ++
        [Event.settle 1 (Except.ok 42)])).fetchCount = 2 ∧
    (1, (Except.ok (some 42) : CallResult Nat Nat)) ∈
      (run (⟨true, [("k", (⟨0, 0, true, none, some 7⟩ : Entry Nat))], [], [], 1, 1⟩ : Sys Nat Nat)
      (Event.call 1 "k" (some CacheableOptions.networkOnlyNonConcurrent) 10 ::
        [2, 3].map (fun c2 =>
          Event.call c2 "k" (some CacheableOptions.networkOnlyNonConcurrent) 10) ++
        [Event.settle 1 (Except.ok 42)])).results ∧
    (∀ c2 ∈ [2, 3], (c2, (Except.ok (some 42) : CallResult Nat Nat)) ∈
      (run (⟨true, [("k", (⟨0, 0, true, none, some 7⟩ : Entry Nat))], [], [], 1, 1⟩ : Sys Nat Nat)
      (Event.call 1 "k" (some CacheableOptions.networkOnlyNonConcurrent) 10 ::
        [2, 3].map (fun c2 =>
          Event.call c2 "k" (some CacheableOptions.networkOnlyNonConcurrent) 10) ++
        [Event.settle 1 (Except.ok 42)])).results) ∧
    (run (⟨true, [("k", (⟨0, 0, true, none, some 7⟩ : Entry Nat))], [], [], 1, 1⟩ : Sys Nat Nat)
      (Event.call 1 "k" (some CacheableOptions.networkOnlyNonConcurrent) 10 ::
        [2, 3].map (fun c2 =>
          Event.call c2 "k" (some CacheableOptions.networkOnlyNonConcurrent) 10) ++
        [Event.settle 1 (Except.ok 42)])).pending = [] := by
  exact C2_nonc_join
    (⟨true, [("k", (⟨0, 0, true, none, some 7⟩ : Entry Nat))], [], [], 1, 1⟩ : Sys Nat Nat)
    "k" (⟨0, 0, true, none, some 7⟩ : Entry Nat) 1 [2, 3] 10 10 42 _
    rfl rfl rfl rfl rfl rfl

theorem runWaiters_direct {T E : Type} (outcome : Except E T) (e : Entry T) (cid : Nat) :
    runWaiters outcome e [Waiter.direct cid] = (e, [(cid, Except.map some outcome)]) := by
  cases outcome <;> simp [runWaiters, applyWaiter, Except.map]

/-- C8: with the cache globally disabled, `cacheable` invokes the supplied
fetch function directly (`return resource()`) and hands its settlement —
value or rejection — straight to the caller; the key → entry map, and with
it every hit counter, timestamp and cached value, is untouched by both the
call and the settlement, and no other pending fetch is disturbed. -/
theorem C8_disabled_bypass {T E : Type} (s : Sys T E) (cid : Nat) (key : String)
    (options : Option CacheableOptions) (now : Nat) (outcome : Except E T)
    (hen : s.enabled = false)
    (hfresh : ∀ p ∈ s.pending, p.1 ≠ s.nextFid) :
    (step s (Event.call cid key options now)).cacheables = s.cacheables ∧
    (step s (Event.call cid key options now)).results = s.results ∧
    (step s (Event.call cid key options now)).fetchCount = s.fetchCount + 1 ∧
    (run s [Event.call cid key options now, Event.settle s.nextFid outcome]).cacheables
      = s.cacheables ∧
    (run s [Event.call cid key options now, Event.settle s.nextFid outcome]).results
      = (cid, Except.map some outcome) :: s.results ∧
    (run s [Event.call cid key options now, Event.settle s.nextFid outcome]).pending
      = s.pending := by
  have hstep : step s (Event.call cid key options now) =
      { s with
        pending := s.pending ++ [(s.nextFid, key, [Waiter.direct cid])]
        nextFid := s.nextFid + 1
        fetchCount := s.fetchCount + 1 } := by
    simp [step, hen]
  have htake := takePending_append_fresh s.nextFid key [Waiter.direct cid] s.pending hfresh
  have hsettle : step
      { s with
        pending := s.pending ++ [(s.nextFid, key, [Waiter.direct cid])]
        nextFid := s.nextFid + 1
        fetchCount := s.fetchCount + 1 }
      (Event.settle s.nextFid outcome) =
      { s with
        results := (cid, Except.map some outcome) :: s.results
        nextFid := s.nextFid + 1
        fetchCount := s.fetchCount + 1 } := by
    cases hlk : lookupEntry key s.cacheables with
    | none => simp [step, htake, hlk, runWaiters_direct]
    | some e =>
      simp [step, htake, hlk, runWaiters_direct,
        insertEntry_self key s.cacheables e hlk]
  have hrun : run s [Event.call cid key options now, Event.settle s.nextFid outcome] =
      { s with
        results := (cid, Except.map some outcome) :: s.results
        nextFid := s.nextFid + 1
        fetchCount := s.fetchCount + 1 } := by
    simp only [run, List.foldl_cons, List.foldl_nil]
    rw [hstep, hsettle]
  rw [hstep, hrun]
  exact ⟨rfl, rfl, rfl, rfl, rfl, rfl⟩

/-- Witness for C8: a disabled cache with one unrelated entry; caller 0's
direct fetch rejects with error 8; the map is untouched and the caller
gets the rejection. -/
theorem C8_disabled_bypass_witness :
    (step (⟨false, [("j", (⟨1, 2, true, none, some 5⟩ : Entry Nat))], [], [], 0, 0⟩ : Sys Nat Nat)
      (Event.call 0 "k" none 3)).cacheables =
      [("j", (⟨1, 2, true, none, some 5⟩ : Entry Nat))] ∧
    (step (⟨false, [("j", (⟨1, 2, true, none, some 5⟩ : Entry Nat))], [], [], 0, 0⟩ : Sys Nat Nat)
      (Event.call 0 "k" none 3)).results = [] ∧
    (step (⟨false, [("j", (⟨1, 2, true, none, some 5⟩ : Entry Nat))], [], [], 0, 0⟩ : Sys Nat Nat)
      (Event.call 0 "k" none 3)).fetchCount = 0 + 1 ∧
    (run (⟨false, [("j", (⟨1, 2, true, none, some 5⟩ : Entry Nat))], [], [], 0, 0⟩ : Sys Nat Nat)
      [Event.call 0 "k" none 3, Event.settle 0 (Except.error 8)]).cacheables =
      [("j", (⟨1, 2, true, none, some 5⟩ : Entry Nat))] ∧
    (run (⟨false, [("j", (⟨1, 2, true, none, some 5⟩ : Entry Nat))], [], [], 0, 0⟩ : Sys Nat Nat)
      [Event.call 0 "k" none 3, Event.settle 0 (Except.error 8)]).results =
      [(0, Except.error 8)] ∧
    (run (⟨false, [("j", (⟨1, 2, true, none, some 5⟩ : Entry Nat))], [], [], 0, 0⟩ : Sys Nat Nat)
      [Event.call 0 "k" none 3, Event.settle 0 (Except.error 8)]).pending = [] := by
  exact C8_disabled_bypass
    (⟨false, [("j", (⟨1, 2, true, none, some 5⟩ : Entry Nat))], [], [], 0, 0⟩ : Sys Nat Nat)
    0 "k" none 3 (Except.error 8) rfl (by simp)

theorem step_call_preinit_start {T E : Type} (s : Sys T E) (c : Nat) (key : String)
    (options : Option CacheableOptions) (now : Nat)
    (hen : s.enabled = true)
    (hinit : ((lookupEntry key s.cacheables).getD {}).inited = false)
    (hp : ((lookupEntry key s.cacheables).getD {}).promise = none) :
    step s (Event.call c key options now) =
      { s with
        cacheables := insertEntry key
          (fetchSync ((lookupEntry key s.cacheables).getD {}) now s.nextFid) s.cacheables
        pending := s.pending ++ [(s.nextFid, key, [Waiter.owner (some c)])]
        nextFid := s.nextFid + 1
        fetchCount := s.fetchCount + 1 } := by
  rcases options with _ | p
  · simp [step, hen, touchSync, hinit, handlePreInit, fetchNonConcurrentSync, hp]
  · cases p <;>
      simp [step, hen, touchSync, hinit, handlePreInit, fetchNonConcurrentSync, hp]

/-- C9: for a previously-unseen key and any policy options, `cacheable`
registers the entry synchronously, before the first fetch settles
(`isCached` is already true and `keys` already lists the key while the
fetch is pending); if that first fetch rejects, the entry stays registered
but uninitialized with no cached value and the rejection is the caller's
result; a next call for that key — under any options — starts a fresh
fetch (the invocation count rises to 2 and the caller awaits the new
pending fetch) instead of being served a cached value. -/
theorem C9_failed_first_fetch {T E : Type} (key : String)
    (o1 o2 : Option CacheableOptions) (t0 t1 : Nat) (err : E) :
    isCached (step (Sys.init T E true) (Event.call 0 key o1 t0)) key = true ∧
    key ∈ keysOf (step (Sys.init T E true) (Event.call 0 key o1 t0)) ∧
    (step (Sys.init T E true) (Event.call 0 key o1 t0)).pending ≠ [] ∧
    isCached (run (Sys.init T E true)
      [Event.call 0 key o1 t0, Event.settle 0 (Except.error err)]) key = true ∧
    key ∈ keysOf (run (Sys.init T E true)
      [Event.call 0 key o1 t0, Event.settle 0 (Except.error err)]) ∧
    lookupEntry key (run (Sys.init T E true)
      [Event.call 0 key o1 t0, Event.settle 0 (Except.error err)]).cacheables =
      some (⟨0, t0, false, none, none⟩ : Entry T) ∧
    (run (Sys.init T E true)
      [Event.call 0 key o1 t0, Event.settle 0 (Except.error err)]).results =
      [(0, Except.error err)] ∧
    (run (Sys.init T E true)
      [Event.call 0 key o1 t0, Event.settle 0 (Except.error err),
       Event.call 1 key o2 t1]).fetchCount = 2 ∧
    (run (Sys.init T E true)
      [Event.call 0 key o1 t0, Event.settle 0 (Except.error err),
       Event.call 1 key o2 t1]).results = [(0, Except.error err)] ∧
    (run (Sys.init T E true)
      [Event.call 0 key o1 t0, Event.settle 0 (Except.error err),
       Event.call 1 key o2 t1]).pending = [(1, key, [Waiter.owner (some 1)])] := by
  have hs1 : step (Sys.init T E true) (Event.call 0 key o1 t0) =
      (⟨true, [(key, (⟨0, t0, false, some 0, none⟩ : Entry T))],
        [(0, key, [Waiter.owner (some 0)])], [], 1, 1⟩ : Sys T E) :=
    step_call_preinit_start (Sys.init T E true) 0 key o1 t0 rfl rfl rfl
  have hs2 : step
      (⟨true, [(key, (⟨0, t0, false, some 0, none⟩ : Entry T))],
        [(0, key, [Waiter.owner (some 0)])], [], 1, 1⟩ : Sys T E)
      (Event.settle 0 (Except.error err)) =
      (⟨true, [(key, (⟨0, t0, false, none, none⟩ : Entry T))],
        [], [(0, Except.error err)], 1, 1⟩ : Sys T E) := by
    simp [step, takePending, lookupEntry, insertEntry, runWaiters, applyWaiter]
  have hrun2 : run (Sys.init T E true)
      [Event.call 0 key o1 t0, Event.settle 0 (Except.error err)] =
      (⟨true, [(key, (⟨0, t0, false, none, none⟩ : Entry T))],
        [], [(0, Except.error err)], 1, 1⟩ : Sys T E) := by
    simp only [run, List.foldl_cons, List.foldl_nil]
    rw [hs1, hs2]
  have hs3 : step
      (⟨true, [(key, (⟨0, t0, false, none, none⟩ : Entry T))],
        [], [(0, Except.error err)], 1, 1⟩ : Sys T E)
      (Event.call 1 key o2 t1) =
      { (⟨true, [(key, (⟨0, t0, false, none, none⟩ : Entry T))],
          [], [(0, Except.error err)], 1, 1⟩ : Sys T E) with
        cacheables := insertEntry key
          (fetchSync ((lookupEntry key
            [(key, (⟨0, t0, false, none, none⟩ : Entry T))]).getD {}) t1 1)
          [(key, (⟨0, t0, false, none, none⟩ : Entry T))]
        pending := [] ++ [(1, key, [Waiter.owner (some 1)])]
        nextFid := 2
        fetchCount := 2 } :=
    step_call_preinit_start
      (⟨true, [(key, (⟨0, t0, false, none, none⟩ : Entry T))],
        [], [(0, Except.error err)], 1, 1⟩ : Sys T E)
      1 key o2 t1 rfl (by simp [lookupEntry]) (by simp [lookupEntry])
  have hrun3 : run (Sys.init T E true)
      [Event.call 0 key o1 t0, Event.settle 0 (Except.error err),
       Event.call 1 key o2 t1] =
      { (⟨true, [(key, (⟨0, t0, false, none, none⟩ : Entry T))],
          [], [(0, Except.error err)], 1, 1⟩ : Sys T E) with
        cacheables := insertEntry key
          (fetchSync ((lookupEntry key
            [(key, (⟨0, t0, false, none, none⟩ : Entry T))]).getD {}) t1 1)
          [(key, (⟨0, t0, false, none, none⟩ : Entry T))]
        pending := [] ++ [(1, key, [Waiter.owner (some 1)])]
        nextFid := 2
        fetchCount := 2 } := by
    simp only [run, List.foldl_cons, List.foldl_nil]
    rw [hs1, hs2, hs3]
  refine ⟨?_, ?_, ?_, ?_, ?_, ?_, ?_, ?_, ?_, ?_⟩
  · rw [hs1]; simp [isCached, lookupEntry]
  · rw [hs1]; simp [keysOf]
  · rw [hs1]; simp
  · rw [hrun2]; simp [isCached, lookupEntry]
  · rw [hrun2]; simp [keysOf]
  · rw [hrun2]; simp [lookupEntry]
  · rw [hrun2]
  · rw [hrun3]
  · rw [hrun3]
  · rw [hrun3]; simp

/-- C4 counterexample: initialized idle entry last fetched at t=0, policy
stale-while-revalidate with `maxAge = 100`, call at `now = 100`: the
elapsed time equals `maxAge` (so the claim's "elapsed ≥ maxAge" condition
for starting a background fetch holds, with no fetch in flight), yet the
code's strict `Date.now() > lastFetch + maxAge` is false and no background
fetch is started — the call is a plain cache hit. -/
theorem C4_boundary_counterexample :
    (100 : Nat) ≥ 0 + 100 ∧
    startsFetch (touchSync (⟨0, 0, true, none, some 7⟩ : Entry Nat)
      (some (CacheableOptions.staleWhileRevalidate (some 100))) 100 1).2 = false ∧
    (touchSync (⟨0, 0, true, none, some 7⟩ : Entry Nat)
      (some (CacheableOptions.staleWhileRevalidate (some 100))) 100 1).2 =
      SyncAct.hit (some 7) := by
  refine ⟨by decide, by decide, by decide⟩

/-- C4 (amended): stale-while-revalidate on an initialized entry always
serves the currently cached value immediately (incrementing `hits`)
without awaiting any fetch; a background fetch is started iff no fetch is
in flight and (`maxAge` is absent-or-zero, or the elapsed time since
`lastFetch` strictly exceeds `maxAge`); a failing background fetch is
propagated to no caller and leaves every cached value intact; a successful
background fetch replaces the value and is observable only to later calls
(the spec's t=0 / t=150 / t=160 scenario). -/
theorem C4_swr_policy {T E : Type} (e : Entry T) (mA : Option Nat) (now fid : Nat)
    (hinit : e.inited = true) :
    ((touchSync e (some (CacheableOptions.staleWhileRevalidate mA)) now fid).2 =
        SyncAct.hit e.value ∨
      (touchSync e (some (CacheableOptions.staleWhileRevalidate mA)) now fid).2 =
        SyncAct.hitAndStart e.value) ∧
    (touchSync e (some (CacheableOptions.staleWhileRevalidate mA)) now fid).1.hits =
      e.hits + 1 ∧
    (startsFetch
        (touchSync e (some (CacheableOptions.staleWhileRevalidate mA)) now fid).2 = true ↔
      (e.promise = none ∧
        (truthyMaxAge mA = false ∨ now > e.lastFetch + mA.getD 0))) ∧
    (∀ (s : Sys T E) (fid2 : Nat) (key : String)
      (rest : List (Nat × String × List Waiter)) (err : E),
      takePending fid2 s.pending = some ((key, [Waiter.owner none]), rest) →
      (step s (Event.settle fid2 (Except.error err))).results = s.results ∧
      ∀ k, (lookupEntry k
          (step s (Event.settle fid2 (Except.error err))).cacheables).map
            (fun e2 => e2.value) =
        (lookupEntry k s.cacheables).map (fun e2 => e2.value)) ∧
    (∀ (key : String) (vA vB : T),
      (run (Sys.init T E true)
        [Event.call 0 key (some (CacheableOptions.staleWhileRevalidate (some 100))) 0,
         Event.settle 0 (Except.ok vA),
         Event.call 1 key (some (CacheableOptions.staleWhileRevalidate (some 100))) 150,
         Event.settle 1 (Except.ok vB),
         Event.call 2 key (some (CacheableOptions.staleWhileRevalidate (some 100))) 160]).results =
        [(2, Except.ok (some vB)), (1, Except.ok (some vA)), (0, Except.ok (some vA))] ∧
      (run (Sys.init T E true)
        [Event.call 0 key (some (CacheableOptions.staleWhileRevalidate (some 100))) 0,
         Event.settle 0 (Except.ok vA),
         Event.call 1 key (some (CacheableOptions.staleWhileRevalidate (some 100))) 150,
         Event.settle 1 (Except.ok vB),
         Event.call 2 key (some (CacheableOptions.staleWhileRevalidate (some 100))) 160]).fetchCount = 2) := by
  have hcf : ∀ hc : ¬((!(isFetching e) &&
      ((truthyMaxAge mA && decide (now > e.lastFetch + mA.getD 0)) ||
        !(truthyMaxAge mA))) = true),
      (!(isFetching e) &&
        ((truthyMaxAge mA && decide (now > e.lastFetch + mA.getD 0)) ||
          !(truthyMaxAge mA))) = false := by
    intro hc
    cases hb : (!(isFetching e) &&
        ((truthyMaxAge mA && decide (now > e.lastFetch + mA.getD 0)) ||
          !(truthyMaxAge mA)))
    · rfl
    · exact absurd hb hc
  have hprop : (!(isFetching e) &&
      ((truthyMaxAge mA && decide (now > e.lastFetch + mA.getD 0)) ||
        !(truthyMaxAge mA))) = true ↔
      (e.promise = none ∧
        (truthyMaxAge mA = false ∨ now > e.lastFetch + mA.getD 0)) := by
    cases hp : e.promise <;> cases ht : truthyMaxAge mA <;>
      simp [isFetching, hp, ht]
  have hact : startsFetch
      (touchSync e (some (CacheableOptions.staleWhileRevalidate mA)) now fid).2 =
      (!(isFetching e) &&
        ((truthyMaxAge mA && decide (now > e.lastFetch + mA.getD 0)) ||
          !(truthyMaxAge mA))) := by
    by_cases hc : (!(isFetching e) &&
        ((truthyMaxAge mA && decide (now > e.lastFetch + mA.getD 0)) ||
          !(truthyMaxAge mA))) = true
    · simp [touchSync, hinit, handleSwr, hc, startsFetch]
    · simp [touchSync, hinit, handleSwr, hcf hc, startsFetch]
  refine ⟨?_, ?_, ?_, ?_, ?_⟩
  · by_cases hc : (!(isFetching e) &&
        ((truthyMaxAge mA && decide (now > e.lastFetch + mA.getD 0)) ||
          !(truthyMaxAge mA))) = true
    · right; simp [touchSync, hinit, handleSwr, hc, fetchSync]
    · left; simp [touchSync, hinit, handleSwr, hcf hc]
  · by_cases hc : (!(isFetching e) &&
        ((truthyMaxAge mA && decide (now > e.lastFetch + mA.getD 0)) ||
          !(truthyMaxAge mA))) = true
    · simp [touchSync, hinit, handleSwr, hc, fetchSync]
    · simp [touchSync, hinit, handleSwr, hcf hc]
  · rw [hact]
    exact hprop
  · intro s fid2 key rest err htake
    constructor
    · have h := step_settle_error_results s fid2 err key [Waiter.owner none] rest htake
      simpa [waiterCids] using h
    · intro k
      have h := step_settle_error_cacheables s fid2 err k
      have h2 := congrArg
        (Option.map (fun t : (Option T) × Nat × Bool × Nat => t.1)) h
      simpa [Option.map_map, Function.comp] using h2
  · intro key vA vB
    have h1 : step (Sys.init T E true)
        (Event.call 0 key (some (CacheableOptions.staleWhileRevalidate (some 100))) 0) =
        (⟨true, [(key, (⟨0, 0, false, some 0, none⟩ : Entry T))],
          [(0, key, [Waiter.owner (some 0)])], [], 1, 1⟩ : Sys T E) :=
      step_call_preinit_start (Sys.init T E true) 0 key
        (some (CacheableOptions.staleWhileRevalidate (some 100))) 0 rfl rfl rfl
    have h2 : step
        (⟨true, [(key, (⟨0, 0, false, some 0, none⟩ : Entry T))],
          [(0, key, [Waiter.owner (some 0)])], [], 1, 1⟩ : Sys T E)
        (Event.settle 0 (Except.ok vA)) =
        (⟨true, [(key, (⟨0, 0, true, none, some vA⟩ : Entry T))],
          [], [(0, Except.ok (some vA))], 1, 1⟩ : Sys T E) := by
      simp [step, takePending, lookupEntry, insertEntry, runWaiters, applyWaiter]
    have h3 : step
        (⟨true, [(key, (⟨0, 0, true, none, some vA⟩ : Entry T))],
          [], [(0, Except.ok (some vA))], 1, 1⟩ : Sys T E)
        (Event.call 1 key (some (CacheableOptions.staleWhileRevalidate (some 100))) 150) =
        (⟨true, [(key, (⟨1, 150, true, some 1, some vA⟩ : Entry T))],
          [(1, key, [Waiter.owner none])],
          [(1, Except.ok (some vA)), (0, Except.ok (some vA))], 2, 2⟩ : Sys T E) := by
      simp [step, touchSync, handleSwr, isFetching, truthyMaxAge, fetchSync,
        lookupEntry, insertEntry]
    have h4 : step
        (⟨true, [(key, (⟨1, 150, true, some 1, some vA⟩ : Entry T))],
          [(1, key, [Waiter.owner none])],
          [(1, Except.ok (some vA)), (0, Except.ok (some vA))], 2, 2⟩ : Sys T E)
        (Event.settle 1 (Except.ok vB)) =
        (⟨true, [(key, (⟨1, 150, true, none, some vB⟩ : Entry T))],
          [], [(1, Except.ok (some vA)), (0, Except.ok (some vA))], 2, 2⟩ : Sys T E) := by
      simp [step, takePending, lookupEntry, insertEntry, runWaiters, applyWaiter]
    have h5 : step
        (⟨true, [(key, (⟨1, 150, true, none, some vB⟩ : Entry T))],
          [], [(1, Except.ok (some vA)), (0, Except.ok (some vA))], 2, 2⟩ : Sys T E)
        (Event.call 2 key (some (CacheableOptions.staleWhileRevalidate (some 100))) 160) =
        (⟨true, [(key, (⟨2, 150, true, none, some vB⟩ : Entry T))],
          [], [(2, Except.ok (some vB)), (1, Except.ok (some vA)),
            (0, Except.ok (some vA))], 2, 2⟩ : Sys T E) := by
      simp [step, touchSync, handleSwr, isFetching, truthyMaxAge, fetchSync,
        lookupEntry, insertEntry]
    have hrun : run (Sys.init T E true)
        [Event.call 0 key (some (CacheableOptions.staleWhileRevalidate (some 100))) 0,
         Event.settle 0 (Except.ok vA),
         Event.call 1 key (some (CacheableOptions.staleWhileRevalidate (some 100))) 150,
         Event.settle 1 (Except.ok vB),
         Event.call 2 key (some (CacheableOptions.staleWhileRevalidate (some 100))) 160] =
        (⟨true, [(key, (⟨2, 150, true, none, some vB⟩ : Entry T))],
          [], [(2, Except.ok (some vB)), (1, Except.ok (some vA)),
            (0, Except.ok (some vA))], 2, 2⟩ : Sys T E) := by
      simp only [run, List.foldl_cons, List.foldl_nil]
      rw [h1, h2, h3, h4, h5]
    rw [hrun]
    exact ⟨rfl, rfl⟩

/-- Witness for C4 (amended) at a concrete initialized idle entry with
`maxAge = 100`, last fetched at 0, called at 150: the caller is served the
cached value at once with `hits` incremented, and a background fetch is
started. -/
theorem C4_swr_policy_witness :
    ((touchSync (⟨0, 0, true, none, some 7⟩ : Entry Nat)
        (some (CacheableOptions.staleWhileRevalidate (some 100))) 150 1).2 =
        SyncAct.hit (some 7) ∨
      (touchSync (⟨0, 0, true, none, some 7⟩ : Entry Nat)
        (some (CacheableOptions.staleWhileRevalidate (some 100))) 150 1).2 =
        SyncAct.hitAndStart (some 7)) ∧
    (touchSync (⟨0, 0, true, none, some 7⟩ : Entry Nat)
        (some (CacheableOptions.staleWhileRevalidate (some 100))) 150 1).1.hits = 0 + 1 ∧
    startsFetch (touchSync (⟨0, 0, true, none, some 7⟩ : Entry Nat)
        (some (CacheableOptions.staleWhileRevalidate (some 100))) 150 1).2 = true := by
  have h := C4_swr_policy (T := Nat) (E := Nat)
    (⟨0, 0, true, none, some 7⟩ : Entry Nat) (some 100) 150 1 rfl
  exact ⟨h.1, h.2.1, h.2.2.1.mpr ⟨rfl, Or.inr (by decide)⟩⟩

end Cacheables
